import Mathlib

/-!
Verification development for the ANS lookup extractor
(`crates/indexer/src/models/token_models/ans_lookup.rs`).

The Rust source is shallowly embedded below. JSON payloads (`serde_json::Value`)
become the inductive `Ans.Json`; the two serde-derived event structs and the
`OptionalString` wire container are embedded field by field, with decoders that
mirror serde's behaviour (all declared fields required, unknown fields ignored).
Panics (`panic!` in `from_transaction`, and the fatal paths inside the `util`
helpers) are embedded as the `Except Ans.Panic` error monad, carrying the same
diagnostic data the Rust format strings carry. The ambient wall clock
(`chrono::Utc::now()`, read once per produced record) is embedded as an explicit
`clock : Nat -> NaiveDateTime` argument applied to the event's index, and the
`HashMap` is embedded as an association list whose `insert` removes any previous
binding of the key, matching `HashMap::insert` overwrite semantics.
-/

namespace Ans

/-- JSON values, modelling the `serde_json::Value` payload carried by an event
(`event.data`). Numbers are omitted: both event structs deserialize their only
numeric field through `deserialize_from_string`, which requires a JSON string. -/
inductive Json where
  | null : Json
  | str : String → Json
  | arr : List Json → Json
  | obj : List (String × Json) → Json

/-- Wire container for an optional string: `struct OptionalString { vec: Vec<String> }`. -/
structure OptionalString where
  vec : List String
  deriving DecidableEq

/-- Embeds `OptionalString::get_string`: `None` if `vec` is empty, else the first element. -/
def OptionalString.get_string (self : OptionalString) : Option String :=
  match self.vec with
  | [] => none
  | s :: _ => some s

/-- Modelled from the spec: the `BigDecimal` type (crate `bigdecimal`, not under
`src/`) carrying the raw numeric "seconds since epoch" value; per the spec it is
"converted to an unsigned integer", so we model it as an unsigned integer. -/
abbrev BigDecimal := Nat

/-- Embeds `struct SetNameAddressEventV1` (a *name-address update* event). -/
structure SetNameAddressEventV1 where
  subdomain_name : OptionalString
  domain_name : String
  new_address : OptionalString
  expiration_time_secs : BigDecimal
  deriving DecidableEq

/-- Embeds `struct RegisterNameEventV1` (a *name registration* event). -/
structure RegisterNameEventV1 where
  subdomain_name : OptionalString
  domain_name : String
  expiration_time_secs : BigDecimal
  deriving DecidableEq

/-- Embeds `enum ANSEvent`. -/
inductive ANSEvent where
  | SetNameAddressEventV1 (inner : SetNameAddressEventV1)
  | RegisterNameEventV1 (inner : RegisterNameEventV1)

/-- Field access on a JSON object, as serde does it: look the field name up;
on anything that is not an object there is no field. -/
def Json.getField : Json → String → Option Json
  | .obj fields, key => fields.lookup key
  | _, _ => none

/-- Decode a JSON value that must be a string (a serde `String` field). -/
def decodeString : Json → Option String
  | .str s => some s
  | _ => none

/-- Decode a JSON array's elements that must all be strings (a serde `Vec<String>`). -/
def decodeStringList : List Json → Option (List String)
  | [] => some []
  | j :: rest =>
      match decodeString j, decodeStringList rest with
      | some s, some l => some (s :: l)
      | _, _ => none

/-- Decode an `OptionalString` value: an object with a `vec` field holding an
array of strings. Unknown fields are ignored, as serde does by default. -/
def decodeOptionalString (j : Json) : Option OptionalString :=
  match j.getField ("vec") with
  | some (.arr elems) => (decodeStringList elems).map OptionalString.mk
  | _ => none

/-- The numeric value of a decimal digit character, `none` on a non-digit. -/
def digitValue (c : Char) : Option Nat :=
  if c.isDigit then some (c.toNat - ('0').toNat) else none

/-- Parse a list of decimal digits into a number, most significant first. -/
def parseDigits : List Char → Nat → Option Nat
  | [], acc => some acc
  | c :: rest, acc =>
      match digitValue c with
      | some d => parseDigits rest (acc * 10 + d)
      | none => none

/-- Parse a non-empty string of decimal digits as an unsigned number. -/
def parseUnsignedDecimal (s : String) : Option Nat :=
  match s.data with
  | [] => none
  | _ => parseDigits s.data 0

/-- Modelled from the spec: `deserialize_from_string` (crate `aptos_api_types`,
not under `src/`) deserializes the `expiration_time_secs` field from a JSON
string holding the raw numeric seconds value; with `BigDecimal` modelled as an
unsigned integer, the string must be an unsigned decimal numeral. -/
def deserialize_from_string (j : Json) : Option BigDecimal :=
  match j with
  | .str s => parseUnsignedDecimal s
  | _ => none

/-- Decode `SetNameAddressEventV1` from a JSON payload, as the serde derive
does: every declared field must be present and well-shaped; unknown fields are
ignored. -/
def decodeSetNameAddressEventV1 (j : Json) : Option SetNameAddressEventV1 :=
  match j.getField ("subdomain_name"), j.getField ("domain_name"),
        j.getField ("new_address"), j.getField ("expiration_time_secs") with
  | some sj, some dj, some aj, some ej =>
      match decodeOptionalString sj, decodeString dj,
            decodeOptionalString aj, deserialize_from_string ej with
      | some sub, some dom, some addr, some secs => some ⟨sub, dom, addr, secs⟩
      | _, _, _, _ => none
  | _, _, _, _ => none

/-- Decode `RegisterNameEventV1` from a JSON payload, as the serde derive does. -/
def decodeRegisterNameEventV1 (j : Json) : Option RegisterNameEventV1 :=
  match j.getField ("subdomain_name"), j.getField ("domain_name"),
        j.getField ("expiration_time_secs") with
  | some sj, some dj, some ej =>
      match decodeOptionalString sj, decodeString dj, deserialize_from_string ej with
      | some sub, some dom, some secs => some ⟨sub, dom, secs⟩
      | _, _, _ => none
  | _, _, _ => none

/-- Modelled from the spec: `chrono::NaiveDateTime` (not under `src/`), "a UTC
calendar timestamp at second precision", represented by its signed seconds
since the Unix epoch. -/
structure NaiveDateTime where
  secs_since_epoch : Int
  deriving DecidableEq

/-- The fatal (process-terminating) conditions of the component, embedded as
structured errors. `decodeFailure` carries exactly what the `panic!` at
`ans_lookup.rs:106` formats: the transaction version, the qualified event type
string and the raw payload. `timestampFailure` carries what the spec requires
of an invalid expiration-seconds value: the transaction version and the
offending numeric value. -/
inductive Panic where
  | decodeFailure (version : Int) (event_type : String) (data : Json)
  | timestampFailure (version : Int) (secs : Nat)

/-- Modelled from the spec: the largest seconds-since-epoch value representable
as a calendar timestamp (`chrono`'s representable range, not under `src/`);
the exact bound is irrelevant to the claims, only that values beyond it are
rejected rather than clamped. -/
def MAX_TIMESTAMP_SECS : Nat := 8210266876799

/-- Modelled from the spec: `util::parse_timestamp_secs` (not under `src/`).
The unsigned seconds value is converted "to a UTC calendar timestamp; if this
conversion is given an invalid/out-of-range value, that is a fatal condition
tagged with the transaction version (do not silently clamp or default)". -/
def parse_timestamp_secs (ts : Nat) (version : Int) : Except Panic NaiveDateTime :=
  if ts ≤ MAX_TIMESTAMP_SECS then .ok ⟨(ts : Int)⟩
  else .error (.timestampFailure version ts)

/-- Modelled from the spec: `util::bigdecimal_to_u64` (not under `src/`)
converts the raw numeric value to an unsigned integer; with `BigDecimal`
modelled as an unsigned integer the conversion is the identity. -/
def bigdecimal_to_u64 (val : BigDecimal) : Nat := val

/-- The `as i64` cast applied to `user_txn.info.version.0` (a `u64`):
two's-complement wraparound into the signed 64-bit range. -/
def u64_as_i64 (v : Nat) : Int :=
  if v % 2 ^ 64 < 2 ^ 63 then ((v % 2 ^ 64 : Nat) : Int)
  else ((v % 2 ^ 64 : Nat) : Int) - 2 ^ 64

/-- The move type of an event (`aptos_api_types::MoveType`), restricted to what
the source inspects: a struct tag carries the defining module's address, the
module name and the struct name; every non-struct type is skipped. -/
inductive MoveType where
  | Struct (address : String) (module : String) (name : String)
  | other
  deriving DecidableEq

/-- An event on a user transaction: its move type and its raw JSON payload
(the only two fields `from_transaction` reads). -/
structure Event where
  typ : MoveType
  data : Json

/-- Transaction info, restricted to the one field read: the version (`u64`). -/
structure TransactionInfo where
  version : Nat

/-- A user transaction: its info and its ordered event list. -/
structure UserTransaction where
  info : TransactionInfo
  events : List Event

/-- `aptos_api_types::Transaction`, restricted to the distinction the source
makes: user transactions versus every other kind. -/
inductive APITransaction where
  | UserTransaction (user_txn : UserTransaction)
  | other

/-- Primary key of `current_ans_lookup`: domain and subdomain name. -/
abbrev CurrentAnsLookupPK := String × String

/-- Embeds `struct CurrentAnsLookup` (one row of the derived state table). -/
structure CurrentAnsLookup where
  domain : String
  subdomain : String
  registered_address : Option String
  last_transaction_version : Int
  expiration_timestamp : NaiveDateTime
  inserted_at : NaiveDateTime
  deriving DecidableEq

/-- The qualified type of an event: for a struct tag, the defining address and
the string `"<module>::<name>"` (`ans_lookup.rs:82-89`); for anything else the
source executes `continue`. -/
def qualifiedTypeOf : MoveType → Option (String × String)
  | .Struct address module name => some (address, module ++ "::" ++ name)
  | .other => none

/-- The classification/decoding stage of the per-event loop body
(`ans_lookup.rs:82-110`): skip non-struct types, skip foreign addresses, match
the qualified type string, decode the payload for the two known types (a decode
failure is the `panic!` at line 106), and ignore every other type. -/
def classifyEvent (addr : String) (txn_version : Int) (event : Event) :
    Except Panic (Option ANSEvent) :=
  match qualifiedTypeOf event.typ with
  | none => .ok none
  | some (event_addr, event_type) =>
      if event_addr ≠ addr then .ok none
      else if event_type = "domains::SetNameAddressEventV1" then
        match decodeSetNameAddressEventV1 event.data with
        | some inner => .ok (some (.SetNameAddressEventV1 inner))
        | none => .error (.decodeFailure txn_version event_type event.data)
      else if event_type = "domains::RegisterNameEventV1" then
        match decodeRegisterNameEventV1 event.data with
        | some inner => .ok (some (.RegisterNameEventV1 inner))
        | none => .error (.decodeFailure txn_version event_type event.data)
      else .ok none

/-- The record built for a decoded `SetNameAddressEventV1` (`ans_lookup.rs:113-129`):
fields in order are domain, subdomain, registered_address,
last_transaction_version, expiration_timestamp, inserted_at. -/
def recordOfSetNameAddress (txn_version : Int) (now : NaiveDateTime)
    (inner : SetNameAddressEventV1) : Except Panic CurrentAnsLookup :=
  match parse_timestamp_secs (bigdecimal_to_u64 inner.expiration_time_secs) txn_version with
  | .error p => .error p
  | .ok expiration_timestamp =>
      .ok ⟨inner.domain_name,
           (inner.subdomain_name.get_string).getD (""),
           inner.new_address.get_string,
           txn_version,
           expiration_timestamp,
           now⟩

/-- The record built for a decoded `RegisterNameEventV1` (`ans_lookup.rs:130-146`):
identical except `registered_address` is always `none`. -/
def recordOfRegisterName (txn_version : Int) (now : NaiveDateTime)
    (inner : RegisterNameEventV1) : Except Panic CurrentAnsLookup :=
  match parse_timestamp_secs (bigdecimal_to_u64 inner.expiration_time_secs) txn_version with
  | .error p => .error p
  | .ok expiration_timestamp =>
      .ok ⟨inner.domain_name,
           (inner.subdomain_name.get_string).getD (""),
           none,
           txn_version,
           expiration_timestamp,
           now⟩

/-- One full iteration of the per-event loop body: classify and decode, then
build the record for the decoded variant. `now` is the wall-clock value
(`chrono::Utc::now().naive_utc()`) captured for this event's record. -/
def processEvent (addr : String) (txn_version : Int) (now : NaiveDateTime)
    (event : Event) : Except Panic (Option CurrentAnsLookup) :=
  match classifyEvent addr txn_version event with
  | .error p => .error p
  | .ok none => .ok none
  | .ok (some (.SetNameAddressEventV1 inner)) =>
      match recordOfSetNameAddress txn_version now inner with
      | .error p => .error p
      | .ok r => .ok (some r)
  | .ok (some (.RegisterNameEventV1 inner)) =>
      match recordOfRegisterName txn_version now inner with
      | .error p => .error p
      | .ok r => .ok (some r)

/-- `HashMap::insert` on the association-list embedding of the map: bind the
key to the new record, removing any previous binding (overwrite semantics). -/
def insertPK (m : List (CurrentAnsLookupPK × CurrentAnsLookup))
    (k : CurrentAnsLookupPK) (v : CurrentAnsLookup) :
    List (CurrentAnsLookupPK × CurrentAnsLookup) :=
  (k, v) :: m.filter (fun p => decide (p.1 ≠ k))

/-- `HashMap::get` on the association-list embedding. -/
def lookupPK (m : List (CurrentAnsLookupPK × CurrentAnsLookup))
    (k : CurrentAnsLookupPK) : Option CurrentAnsLookup :=
  (m.find? (fun p => decide (p.1 = k))).map Prod.snd

/-- The event loop of `from_transaction` (`ans_lookup.rs:81-157`): process the
events in order, threading the map accumulator; `i` is the index of the next
event, used only to address the clock. -/
def processEvents (addr : String) (txn_version : Int) (clock : Nat → NaiveDateTime) :
    Nat → List Event → List (CurrentAnsLookupPK × CurrentAnsLookup) →
    Except Panic (List (CurrentAnsLookupPK × CurrentAnsLookup))
  | _, [], acc => .ok acc
  | i, event :: rest, acc =>
      match processEvent addr txn_version (clock i) event with
      | .error p => .error p
      | .ok none => processEvents addr txn_version clock (i + 1) rest acc
      | .ok (some r) =>
          processEvents addr txn_version clock (i + 1) rest
            (insertPK acc (r.domain, r.subdomain) r)

/-- Embeds `CurrentAnsLookup::from_transaction` (`ans_lookup.rs:74-161`).
`clock` supplies the wall-clock values read by `chrono::Utc::now()`; the Rust
panics surface as `Except.error`. With no configured contract address, or on a
non-user transaction, the map stays empty. -/
def from_transaction (transaction : APITransaction)
    (ans_contract_address : Option String) (clock : Nat → NaiveDateTime) :
    Except Panic (List (CurrentAnsLookupPK × CurrentAnsLookup)) :=
  match ans_contract_address with
  | none => .ok []
  | some addr =>
      match transaction with
      | .UserTransaction user_txn =>
          processEvents addr (u64_as_i64 user_txn.info.version) clock 0 user_txn.events []
      | .other => .ok []

/-- The fold step of the reduction: insert a record under its own primary key
(`ans_lookup.rs:149-155`). -/
def insRec (acc : List (CurrentAnsLookupPK × CurrentAnsLookup))
    (r : CurrentAnsLookup) : List (CurrentAnsLookupPK × CurrentAnsLookup) :=
  insertPK acc (r.domain, r.subdomain) r

/-- The records the event loop produces, in event order, starting from event
index `i` (used to specify the reduction as a fold of `insRec`). -/
def recordsFrom (addr : String) (txn_version : Int) (clock : Nat → NaiveDateTime) :
    Nat → List Event → List CurrentAnsLookup
  | _, [] => []
  | i, event :: rest =>
      match processEvent addr txn_version (clock i) event with
      | .ok (some r) => r :: recordsFrom addr txn_version clock (i + 1) rest
      | _ => recordsFrom addr txn_version clock (i + 1) rest

/-- The last record of the list whose primary key is `k`. -/
def lastMatch (k : CurrentAnsLookupPK) :
    List CurrentAnsLookup → Option CurrentAnsLookup
  | [] => none
  | r :: rest =>
      match lastMatch k rest with
      | some r' => some r'
      | none => if (r.domain, r.subdomain) = k then some r else none

/-- Whether processing the event completes without aborting. The wall-clock
value is irrelevant to success (it only lands in `inserted_at`), so a fixed
dummy value is used; this irrelevance is proved below. -/
def eventSucceeds (addr : String) (txn_version : Int) (event : Event) : Bool :=
  match processEvent addr txn_version ⟨0⟩ event with
  | .ok _ => true
  | .error _ => false

/-- The `domain_name` field carried by an event's decoded payload, when the
event is of one of the two known types and its payload decodes. -/
def decodedDomainOf (event : Event) : Option String :=
  match qualifiedTypeOf event.typ with
  | none => none
  | some (_, event_type) =>
      if event_type = "domains::SetNameAddressEventV1" then
        (decodeSetNameAddressEventV1 event.data).map SetNameAddressEventV1.domain_name
      else if event_type = "domains::RegisterNameEventV1" then
        (decodeRegisterNameEventV1 event.data).map RegisterNameEventV1.domain_name
      else none

/-- All fields of a record except the audit field `inserted_at`. -/
def eraseInsertedAt (r : CurrentAnsLookup) :
    String × String × Option String × Int × NaiveDateTime :=
  (r.domain, r.subdomain, r.registered_address, r.last_transaction_version,
   r.expiration_timestamp)

/-- A map with each record's `inserted_at` field erased. -/
def eraseMapTimes (m : List (CurrentAnsLookupPK × CurrentAnsLookup)) :
    List (CurrentAnsLookupPK × (String × String × Option String × Int × NaiveDateTime)) :=
  m.map (fun p => (p.1, eraseInsertedAt p.2))

/-! Concrete inputs used by the witnesses and counterexamples. -/

/-- A well-formed `SetNameAddressEventV1` payload: bare domain `alice`,
present address, expiration 1700000000. -/
def exSetData : Json := .obj [
  ("subdomain_name", .obj [("vec", .arr [])]),
  ("domain_name", .str ("alice")),
  ("new_address", .obj [("vec", .arr [.str ("0xabc")])]),
  ("expiration_time_secs", .str ("1700000000"))]

/-- A well-formed `RegisterNameEventV1` payload for the same name. -/
def exRegData : Json := .obj [
  ("subdomain_name", .obj [("vec", .arr [])]),
  ("domain_name", .str ("alice")),
  ("expiration_time_secs", .str ("1700000000"))]

/-- A name-address update event at contract address `0x1`. -/
def exSetEvent : Event :=
  ⟨.Struct ("0x1") ("domains") ("SetNameAddressEventV1"), exSetData⟩

/-- A registration event at contract address `0x1`. -/
def exRegEvent : Event :=
  ⟨.Struct ("0x1") ("domains") ("RegisterNameEventV1"), exRegData⟩

/-- A clock whose reading at event index `i` is `i` seconds since epoch. -/
def exClock : Nat → NaiveDateTime := fun i => ⟨(i : Int)⟩

/-- A registration of `alice` followed by an address update of `alice`
in one transaction, version 42. -/
def exTxnRegThenSet : APITransaction :=
  .UserTransaction ⟨⟨42⟩, [exRegEvent, exSetEvent]⟩

/-- A `RegisterNameEventV1` payload missing the required `domain_name` field. -/
def exBadData : Json := .obj [
  ("subdomain_name", .obj [("vec", .arr [])]),
  ("expiration_time_secs", .str ("1700000000"))]

/-- A registration event with the malformed payload. -/
def exBadEvent : Event :=
  ⟨.Struct ("0x1") ("domains") ("RegisterNameEventV1"), exBadData⟩

/-- A `RegisterNameEventV1` payload whose `domain_name` is the empty string. -/
def exEmptyDomainData : Json := .obj [
  ("subdomain_name", .obj [("vec", .arr [])]),
  ("domain_name", .str ("")),
  ("expiration_time_secs", .str ("1700000000"))]

/-- A registration event with an empty domain name. -/
def exEmptyDomainEvent : Event :=
  ⟨.Struct ("0x1") ("domains") ("RegisterNameEventV1"), exEmptyDomainData⟩

/-- A `RegisterNameEventV1` payload that additionally carries address-shaped
data in an (ignored) `new_address` field. -/
def exJunkAddressRegData : Json := .obj [
  ("subdomain_name", .obj [("vec", .arr [])]),
  ("domain_name", .str ("bob")),
  ("new_address", .obj [("vec", .arr [.str ("0xdead")])]),
  ("expiration_time_secs", .str ("1700000000"))]

/-- A registration event whose payload contains address-shaped data. -/
def exJunkAddressRegEvent : Event :=
  ⟨.Struct ("0x1") ("domains") ("RegisterNameEventV1"), exJunkAddressRegData⟩

/-- The record produced by `exSetEvent` at version 42 with clock reading 1
(event index 1 of `exTxnRegThenSet`). -/
def exRecM1 : CurrentAnsLookup :=
  ⟨("alice"), (""), some ("0xabc"), 42, ⟨1700000000⟩, ⟨1⟩⟩

/-- The map returned for `exTxnRegThenSet`: exactly the update's record. -/
def exM1 : List (CurrentAnsLookupPK × CurrentAnsLookup) :=
  [((("alice"), ("")), exRecM1)]

/-- The record produced by `exSetEvent` at version 42 with clock reading 0. -/
def exRecM4 : CurrentAnsLookup :=
  ⟨("alice"), (""), some ("0xabc"), 42, ⟨1700000000⟩, ⟨0⟩⟩

/-- The map returned for a transaction holding just `exSetEvent`. -/
def exM4 : List (CurrentAnsLookupPK × CurrentAnsLookup) :=
  [((("alice"), ("")), exRecM4)]

/-- The record produced by `exEmptyDomainEvent` at version 5: its domain is
the empty string. -/
def exRec9 : CurrentAnsLookup :=
  ⟨(""), (""), none, 5, ⟨1700000000⟩, ⟨0⟩⟩

/-- The record produced by `exRegEvent` on a transaction of version `2 ^ 63`:
the `as i64` cast wraps the version to `-(2 ^ 63)`. -/
def exRecBig : CurrentAnsLookup :=
  ⟨("alice"), (""), none, -(2 ^ 63), ⟨1700000000⟩, ⟨0⟩⟩

/-- A decoded name-address update whose subdomain container is empty. -/
def exInnerSetC6 : SetNameAddressEventV1 :=
  ⟨⟨[]⟩, ("alice"), ⟨[("0xabc")]⟩, 1700000000⟩

/-- The record built from `exInnerSetC6`: subdomain defaults to the empty string. -/
def exRecC6a : CurrentAnsLookup :=
  ⟨("alice"), (""), some ("0xabc"), 42, ⟨1700000000⟩, ⟨0⟩⟩

/-- The record built from `exInnerSetC6` with clock reading 7. -/
def exRecC6aAt7 : CurrentAnsLookup :=
  ⟨("alice"), (""), some ("0xabc"), 42, ⟨1700000000⟩, ⟨7⟩⟩

/-- A decoded registration whose subdomain container holds two strings. -/
def exInnerRegC6 : RegisterNameEventV1 :=
  ⟨⟨[("www"), ("x")]⟩, ("alice"), 1700000000⟩

/-- The record built from `exInnerRegC6`: subdomain is the first element. -/
def exRecC6b : CurrentAnsLookup :=
  ⟨("alice"), ("www"), none, 42, ⟨1700000000⟩, ⟨0⟩⟩

/-! Lemmas about the association-list embedding of the map. -/

theorem find?_filter_of_imp {α : Type} (p q : α → Bool)
    (h : ∀ x, p x = true → q x = true) :
    ∀ l : List α, (l.filter q).find? p = l.find? p := by
  intro l
  induction l with
  | nil => rfl
  | cons a l ih =>
    cases hq : q a with
    | true =>
      rw [List.filter_cons_of_pos hq]
      cases hp : p a with
      | true => rw [List.find?_cons_of_pos _ hp, List.find?_cons_of_pos _ hp]
      | false => rw [List.find?_cons_of_neg _ (by simp [hp]),
                     List.find?_cons_of_neg _ (by simp [hp]), ih]
    | false =>
      have hp : p a = false := by
        cases hpa : p a with
        | false => rfl
        | true => rw [h a hpa] at hq; cases hq
      rw [List.filter_cons_of_neg (by simp [hq]), ih,
          List.find?_cons_of_neg _ (by simp [hp])]

theorem lookupPK_insertPK (m : List (CurrentAnsLookupPK × CurrentAnsLookup))
    (k k' : CurrentAnsLookupPK) (v : CurrentAnsLookup) :
    lookupPK (insertPK m k v) k' = if k' = k then some v else lookupPK m k' := by
  unfold lookupPK insertPK
  by_cases h : k' = k
  · subst h
    rw [List.find?_cons_of_pos _ (by simp)]
    simp
  · rw [List.find?_cons_of_neg _
          (by simp only [decide_eq_true_eq]; exact fun hh => h hh.symm),
        if_neg h, find?_filter_of_imp]
    intro x hx
    simp only [decide_eq_true_eq] at hx ⊢
    rw [hx]
    exact h

theorem insertPK_keys_nodup {m : List (CurrentAnsLookupPK × CurrentAnsLookup)}
    {k : CurrentAnsLookupPK} {v : CurrentAnsLookup}
    (h : (m.map Prod.fst).Nodup) : ((insertPK m k v).map Prod.fst).Nodup := by
  unfold insertPK
  rw [List.map_cons, List.nodup_cons]
  refine ⟨?_, ?_⟩
  · intro hk
    rw [List.mem_map] at hk
    obtain ⟨p, hp, hpk⟩ := hk
    rw [List.mem_filter] at hp
    have h2 := hp.2
    simp only [decide_eq_true_eq] at h2
    exact h2 hpk
  · exact List.Nodup.sublist ((List.filter_sublist m).map Prod.fst) h

/-! Lemmas about the record builders. -/

theorem recordOfSetNameAddress_ok {txn_version : Int} {now : NaiveDateTime}
    {inner : SetNameAddressEventV1} {r : CurrentAnsLookup}
    (h : recordOfSetNameAddress txn_version now inner = .ok r) :
    r = ⟨inner.domain_name, (inner.subdomain_name.get_string).getD (""),
         inner.new_address.get_string, txn_version,
         ⟨(bigdecimal_to_u64 inner.expiration_time_secs : Int)⟩, now⟩ ∧
    bigdecimal_to_u64 inner.expiration_time_secs ≤ MAX_TIMESTAMP_SECS := by
  unfold recordOfSetNameAddress parse_timestamp_secs at h
  by_cases hle : bigdecimal_to_u64 inner.expiration_time_secs ≤ MAX_TIMESTAMP_SECS
  · rw [if_pos hle] at h
    cases h
    exact ⟨rfl, hle⟩
  · rw [if_neg hle] at h
    cases h

theorem recordOfRegisterName_ok {txn_version : Int} {now : NaiveDateTime}
    {inner : RegisterNameEventV1} {r : CurrentAnsLookup}
    (h : recordOfRegisterName txn_version now inner = .ok r) :
    r = ⟨inner.domain_name, (inner.subdomain_name.get_string).getD (""),
         none, txn_version,
         ⟨(bigdecimal_to_u64 inner.expiration_time_secs : Int)⟩, now⟩ ∧
    bigdecimal_to_u64 inner.expiration_time_secs ≤ MAX_TIMESTAMP_SECS := by
  unfold recordOfRegisterName parse_timestamp_secs at h
  by_cases hle : bigdecimal_to_u64 inner.expiration_time_secs ≤ MAX_TIMESTAMP_SECS
  · rw [if_pos hle] at h
    cases h
    exact ⟨rfl, hle⟩
  · rw [if_neg hle] at h
    cases h

/-! Shape lemmas for the classification stage. -/

theorem qualifiedTypeOf_eq_some {t : MoveType} {ea et : String}
    (h : qualifiedTypeOf t = some (ea, et)) :
    ∃ module name, t = .Struct ea module name ∧ et = module ++ "::" ++ name := by
  cases t with
  | Struct a mo n =>
    injection h with h2
    injection h2 with h3 h4
    subst h3
    exact ⟨mo, n, rfl, h4.symm⟩
  | other => cases h

theorem classifyEvent_ok_some {addr : String} {txn_version : Int} {event : Event}
    {ev : ANSEvent} (h : classifyEvent addr txn_version event = .ok (some ev)) :
    ∃ module name, event.typ = .Struct addr module name ∧
      ((∃ inner, ev = .SetNameAddressEventV1 inner ∧
          module ++ "::" ++ name = "domains::SetNameAddressEventV1" ∧
          decodeSetNameAddressEventV1 event.data = some inner) ∨
       (∃ inner, ev = .RegisterNameEventV1 inner ∧
          module ++ "::" ++ name = "domains::RegisterNameEventV1" ∧
          decodeRegisterNameEventV1 event.data = some inner)) := by
  unfold classifyEvent at h
  split at h
  · simp at h
  · rename_i ea et hq
    split at h
    · simp at h
    · rename_i ha
      push_neg at ha
      subst ha
      obtain ⟨mo, n, hty, hqt⟩ := qualifiedTypeOf_eq_some hq
      split at h
      · rename_i h1
        split at h
        · rename_i inner hd
          simp only [Except.ok.injEq, Option.some.injEq] at h
          exact ⟨mo, n, hty, .inl ⟨inner, h.symm, by rw [← hqt]; exact h1, hd⟩⟩
        · simp at h
      · rename_i h1
        split at h
        · rename_i h2
          split at h
          · rename_i inner hd
            simp only [Except.ok.injEq, Option.some.injEq] at h
            exact ⟨mo, n, hty, .inr ⟨inner, h.symm, by rw [← hqt]; exact h2, hd⟩⟩
          · simp at h
        · simp at h

theorem classifyEvent_error {addr : String} {txn_version : Int} {event : Event}
    {p : Panic} (h : classifyEvent addr txn_version event = .error p) :
    ∃ module name, event.typ = .Struct addr module name ∧
      ((module ++ "::" ++ name = "domains::SetNameAddressEventV1" ∧
          decodeSetNameAddressEventV1 event.data = none) ∨
       (module ++ "::" ++ name = "domains::RegisterNameEventV1" ∧
          decodeRegisterNameEventV1 event.data = none)) ∧
      p = .decodeFailure txn_version (module ++ "::" ++ name) event.data := by
  unfold classifyEvent at h
  split at h
  · simp at h
  · rename_i ea et hq
    split at h
    · simp at h
    · rename_i ha
      push_neg at ha
      subst ha
      obtain ⟨mo, n, hty, hqt⟩ := qualifiedTypeOf_eq_some hq
      split at h
      · rename_i h1
        split at h
        · simp at h
        · rename_i hd
          simp only [Except.error.injEq] at h
          refine ⟨mo, n, hty, .inl ⟨by rw [← hqt]; exact h1, hd⟩, ?_⟩
          rw [← h, hqt]
      · rename_i h1
        split at h
        · rename_i h2
          split at h
          · simp at h
          · rename_i hd
            simp only [Except.error.injEq] at h
            refine ⟨mo, n, hty, .inr ⟨by rw [← hqt]; exact h2, hd⟩, ?_⟩
            rw [← h, hqt]
        · simp at h

theorem processEvent_error_of_classify {addr : String} {txn_version : Int}
    {now : NaiveDateTime} {event : Event} {p : Panic}
    (h : classifyEvent addr txn_version event = .error p) :
    processEvent addr txn_version now event = .error p := by
  unfold processEvent
  rw [h]

theorem processEvent_ok_some {addr : String} {txn_version : Int}
    {now : NaiveDateTime} {event : Event} {r : CurrentAnsLookup}
    (h : processEvent addr txn_version now event = .ok (some r)) :
    ∃ module name, event.typ = .Struct addr module name ∧
      ((∃ inner, decodeSetNameAddressEventV1 event.data = some inner ∧
          module ++ "::" ++ name = "domains::SetNameAddressEventV1" ∧
          recordOfSetNameAddress txn_version now inner = .ok r) ∨
       (∃ inner, decodeRegisterNameEventV1 event.data = some inner ∧
          module ++ "::" ++ name = "domains::RegisterNameEventV1" ∧
          recordOfRegisterName txn_version now inner = .ok r)) := by
  unfold processEvent at h
  split at h
  · cases h
  · simp at h
  · rename_i inner hc
    split at h
    · cases h
    · rename_i r' hr
      simp only [Except.ok.injEq, Option.some.injEq] at h
      subst h
      obtain ⟨mo, n, hty, hcase⟩ := classifyEvent_ok_some hc
      rcases hcase with ⟨inner', heq, hqt, hd⟩ | ⟨inner', heq, hqt, hd⟩
      · injection heq with heq
        subst heq
        exact ⟨mo, n, hty, .inl ⟨inner, hd, hqt, hr⟩⟩
      · cases heq
  · rename_i inner hc
    split at h
    · cases h
    · rename_i r' hr
      simp only [Except.ok.injEq, Option.some.injEq] at h
      subst h
      obtain ⟨mo, n, hty, hcase⟩ := classifyEvent_ok_some hc
      rcases hcase with ⟨inner', heq, hqt, hd⟩ | ⟨inner', heq, hqt, hd⟩
      · cases heq
      · injection heq with heq
        subst heq
        exact ⟨mo, n, hty, .inr ⟨inner, hd, hqt, hr⟩⟩

/-! Lemmas characterising the event-loop fold. -/

theorem processEvents_ok_eq_foldl (addr : String) (txn_version : Int)
    (clock : Nat → NaiveDateTime) :
    ∀ (l : List Event) (i : Nat) acc m,
      processEvents addr txn_version clock i l acc = .ok m →
      m = (recordsFrom addr txn_version clock i l).foldl insRec acc := by
  intro l
  induction l with
  | nil =>
    intro i acc m h
    injection h with h
    subst h
    simp [recordsFrom]
  | cons e rest ih =>
    intro i acc m h
    simp only [processEvents] at h
    split at h
    · cases h
    · rename_i hp
      simp only [recordsFrom, hp]
      exact ih _ _ _ h
    · rename_i r hp
      simp only [recordsFrom, hp]
      rw [List.foldl_cons]
      exact ih _ _ _ h

theorem lookupPK_foldl_insRec :
    ∀ (rs : List CurrentAnsLookup)
      (acc : List (CurrentAnsLookupPK × CurrentAnsLookup)) (k : CurrentAnsLookupPK),
      lookupPK (rs.foldl insRec acc) k =
        match lastMatch k rs with
        | some r => some r
        | none => lookupPK acc k := by
  intro rs
  induction rs with
  | nil => intro acc k; simp [lastMatch]
  | cons r rs ih =>
    intro acc k
    rw [List.foldl_cons, ih]
    simp only [lastMatch]
    cases hl : lastMatch k rs with
    | some r' => simp [hl]
    | none =>
      simp only [hl]
      rw [insRec, lookupPK_insertPK]
      by_cases hk : k = (r.domain, r.subdomain)
      · rw [if_pos hk, if_pos hk.symm]
      · rw [if_neg hk, if_neg (fun hh => hk hh.symm)]

theorem processEvents_ok_keys_nodup (addr : String) (txn_version : Int)
    (clock : Nat → NaiveDateTime) :
    ∀ (l : List Event) (i : Nat) acc m, (acc.map Prod.fst).Nodup →
      processEvents addr txn_version clock i l acc = .ok m →
      (m.map Prod.fst).Nodup := by
  intro l
  induction l with
  | nil =>
    intro i acc m hn h
    injection h with h
    subst h
    exact hn
  | cons e rest ih =>
    intro i acc m hn h
    simp only [processEvents] at h
    split at h
    · cases h
    · exact ih _ _ _ hn h
    · exact ih _ _ _ (insertPK_keys_nodup hn) h

theorem processEvents_ok_mem (addr : String) (txn_version : Int)
    (clock : Nat → NaiveDateTime) :
    ∀ (l : List Event) (i : Nat) acc m,
      processEvents addr txn_version clock i l acc = .ok m →
      ∀ p ∈ m, p ∈ acc ∨
        ∃ e ∈ l, ∃ now, processEvent addr txn_version now e = .ok (some p.2) ∧
          p.1 = (p.2.domain, p.2.subdomain) := by
  intro l
  induction l with
  | nil =>
    intro i acc m h p hp
    injection h with h
    subst h
    exact .inl hp
  | cons e rest ih =>
    intro i acc m h p hp
    simp only [processEvents] at h
    split at h
    · cases h
    · rcases ih _ _ _ h p hp with hacc | ⟨e', he', now, hpr⟩
      · exact .inl hacc
      · exact .inr ⟨e', List.mem_cons_of_mem _ he', now, hpr⟩
    · rename_i r hpe
      rcases ih _ _ _ h p hp with hacc | ⟨e', he', now, hpr⟩
      · unfold insertPK at hacc
        rcases List.mem_cons.mp hacc with heq | hmem
        · subst heq
          exact .inr ⟨e, List.mem_cons_self e rest, clock i, hpe, rfl⟩
        · exact .inl (List.mem_of_mem_filter hmem)
      · exact .inr ⟨e', List.mem_cons_of_mem _ he', now, hpr⟩

/-! Lemmas about the irrelevance of the wall-clock value to everything except
the `inserted_at` field. -/

theorem recordOfSetNameAddress_cases (txn_version : Int) (n1 n2 : NaiveDateTime)
    (inner : SetNameAddressEventV1) :
    (∃ p, recordOfSetNameAddress txn_version n1 inner = .error p ∧
          recordOfSetNameAddress txn_version n2 inner = .error p) ∨
    (∃ r1 r2, recordOfSetNameAddress txn_version n1 inner = .ok r1 ∧
       recordOfSetNameAddress txn_version n2 inner = .ok r2 ∧
       eraseInsertedAt r1 = eraseInsertedAt r2) := by
  cases hp : parse_timestamp_secs (bigdecimal_to_u64 inner.expiration_time_secs)
      txn_version with
  | error p =>
    exact .inl ⟨p, by simp only [recordOfSetNameAddress, hp],
                   by simp only [recordOfSetNameAddress, hp]⟩
  | ok ts =>
    refine .inr ⟨⟨inner.domain_name, (inner.subdomain_name.get_string).getD (""),
        inner.new_address.get_string, txn_version, ts, n1⟩,
      ⟨inner.domain_name, (inner.subdomain_name.get_string).getD (""),
        inner.new_address.get_string, txn_version, ts, n2⟩, ?_, ?_, rfl⟩
    · simp only [recordOfSetNameAddress, hp]
    · simp only [recordOfSetNameAddress, hp]

theorem recordOfRegisterName_cases (txn_version : Int) (n1 n2 : NaiveDateTime)
    (inner : RegisterNameEventV1) :
    (∃ p, recordOfRegisterName txn_version n1 inner = .error p ∧
          recordOfRegisterName txn_version n2 inner = .error p) ∨
    (∃ r1 r2, recordOfRegisterName txn_version n1 inner = .ok r1 ∧
       recordOfRegisterName txn_version n2 inner = .ok r2 ∧
       eraseInsertedAt r1 = eraseInsertedAt r2) := by
  cases hp : parse_timestamp_secs (bigdecimal_to_u64 inner.expiration_time_secs)
      txn_version with
  | error p =>
    exact .inl ⟨p, by simp only [recordOfRegisterName, hp],
                   by simp only [recordOfRegisterName, hp]⟩
  | ok ts =>
    refine .inr ⟨⟨inner.domain_name, (inner.subdomain_name.get_string).getD (""),
        none, txn_version, ts, n1⟩,
      ⟨inner.domain_name, (inner.subdomain_name.get_string).getD (""),
        none, txn_version, ts, n2⟩, ?_, ?_, rfl⟩
    · simp only [recordOfRegisterName, hp]
    · simp only [recordOfRegisterName, hp]

theorem processEvent_cases (addr : String) (txn_version : Int) (e : Event)
    (n1 n2 : NaiveDateTime) :
    (∃ p, processEvent addr txn_version n1 e = .error p ∧
          processEvent addr txn_version n2 e = .error p) ∨
    (processEvent addr txn_version n1 e = .ok none ∧
     processEvent addr txn_version n2 e = .ok none) ∨
    (∃ r1 r2, processEvent addr txn_version n1 e = .ok (some r1) ∧
       processEvent addr txn_version n2 e = .ok (some r2) ∧
       eraseInsertedAt r1 = eraseInsertedAt r2) := by
  cases hc : classifyEvent addr txn_version e with
  | error p =>
    exact .inl ⟨p, by simp only [processEvent, hc], by simp only [processEvent, hc]⟩
  | ok o =>
    cases o with
    | none =>
      exact .inr (.inl ⟨by simp only [processEvent, hc], by simp only [processEvent, hc]⟩)
    | some ev =>
      cases ev with
      | SetNameAddressEventV1 inner =>
        rcases recordOfSetNameAddress_cases txn_version n1 n2 inner with
          ⟨p, h1, h2⟩ | ⟨r1, r2, h1, h2, her⟩
        · exact .inl ⟨p, by simp only [processEvent, hc, h1],
                         by simp only [processEvent, hc, h2]⟩
        · exact .inr (.inr ⟨r1, r2, by simp only [processEvent, hc, h1],
                         by simp only [processEvent, hc, h2], her⟩)
      | RegisterNameEventV1 inner =>
        rcases recordOfRegisterName_cases txn_version n1 n2 inner with
          ⟨p, h1, h2⟩ | ⟨r1, r2, h1, h2, her⟩
        · exact .inl ⟨p, by simp only [processEvent, hc, h1],
                         by simp only [processEvent, hc, h2]⟩
        · exact .inr (.inr ⟨r1, r2, by simp only [processEvent, hc, h1],
                         by simp only [processEvent, hc, h2], her⟩)

theorem processEvent_ok_of_eventSucceeds {addr : String} {txn_version : Int}
    {e : Event} (h : eventSucceeds addr txn_version e = true) (now : NaiveDateTime) :
    ∃ o, processEvent addr txn_version now e = .ok o := by
  unfold eventSucceeds at h
  rcases processEvent_cases addr txn_version e ⟨0⟩ now with
    ⟨p, h1, h2⟩ | ⟨h1, h2⟩ | ⟨r1, r2, h1, h2, her⟩
  · rw [h1] at h
    cases h
  · exact ⟨none, h2⟩
  · exact ⟨some r2, h2⟩

theorem processEvents_append_of_ok (addr : String) (txn_version : Int)
    (clock : Nat → NaiveDateTime) :
    ∀ (pre rest : List Event) (i : Nat) acc,
      (∀ e ∈ pre, eventSucceeds addr txn_version e = true) →
      ∃ acc', processEvents addr txn_version clock i (pre ++ rest) acc =
        processEvents addr txn_version clock (i + pre.length) rest acc' := by
  intro pre
  induction pre with
  | nil =>
    intro rest i acc _
    exact ⟨acc, by simp⟩
  | cons e pre ih =>
    intro rest i acc hok
    obtain ⟨o, ho⟩ :=
      processEvent_ok_of_eventSucceeds (hok e (List.mem_cons_self e pre)) (clock i)
    have hok' : ∀ e' ∈ pre, eventSucceeds addr txn_version e' = true :=
      fun e' he' => hok e' (List.mem_cons_of_mem _ he')
    have hlen : i + (e :: pre).length = (i + 1) + pre.length := by
      simp only [List.length_cons]
      omega
    cases o with
    | none =>
      obtain ⟨acc', hacc⟩ := ih rest (i + 1) acc hok'
      refine ⟨acc', ?_⟩
      rw [List.cons_append]
      simp only [processEvents, ho]
      rw [hacc, hlen]
    | some r =>
      obtain ⟨acc', hacc⟩ := ih rest (i + 1) (insertPK acc (r.domain, r.subdomain) r) hok'
      refine ⟨acc', ?_⟩
      rw [List.cons_append]
      simp only [processEvents, ho]
      rw [hacc, hlen]

theorem eraseMapTimes_insertPK (m : List (CurrentAnsLookupPK × CurrentAnsLookup))
    (k : CurrentAnsLookupPK) (v : CurrentAnsLookup) :
    eraseMapTimes (insertPK m k v) =
      (k, eraseInsertedAt v) :: (eraseMapTimes m).filter (fun p => decide (p.1 ≠ k)) := by
  unfold eraseMapTimes insertPK
  rw [List.map_cons]
  congr 1
  have hpred : ((fun p => decide (p.1 ≠ k)) ∘
      (fun p : CurrentAnsLookupPK × CurrentAnsLookup => (p.1, eraseInsertedAt p.2))) =
      (fun p : CurrentAnsLookupPK × CurrentAnsLookup => decide (p.1 ≠ k)) := by
    funext p
    rfl
  rw [List.filter_map, hpred]

theorem processEvents_map_erase (addr : String) (txn_version : Int)
    (c1 c2 : Nat → NaiveDateTime) :
    ∀ (l : List Event) (i : Nat) acc1 acc2,
      eraseMapTimes acc1 = eraseMapTimes acc2 →
      (processEvents addr txn_version c1 i l acc1).map eraseMapTimes =
      (processEvents addr txn_version c2 i l acc2).map eraseMapTimes := by
  intro l
  induction l with
  | nil =>
    intro i acc1 acc2 hacc
    exact congrArg Except.ok hacc
  | cons e rest ih =>
    intro i acc1 acc2 hacc
    rcases processEvent_cases addr txn_version e (c1 i) (c2 i) with
      ⟨p, h1, h2⟩ | ⟨h1, h2⟩ | ⟨r1, r2, h1, h2, her⟩
    · simp only [processEvents, h1, h2]
    · simp only [processEvents, h1, h2]
      exact ih _ _ _ hacc
    · simp only [processEvents, h1, h2]
      apply ih
      have hd : r1.domain = r2.domain := congrArg (fun t => t.1) her
      have hs : r1.subdomain = r2.subdomain := congrArg (fun t => t.2.1) her
      rw [eraseMapTimes_insertPK, eraseMapTimes_insertPK, hacc, her, hd, hs]

theorem processEvents_ok_no_classify_error (addr : String) (txn_version : Int)
    (clock : Nat → NaiveDateTime) :
    ∀ (l : List Event) (i : Nat) acc m,
      processEvents addr txn_version clock i l acc = .ok m →
      ∀ e ∈ l, ∀ p, classifyEvent addr txn_version e ≠ .error p := by
  intro l
  induction l with
  | nil =>
    intro i acc m h e he
    cases he
  | cons e0 rest ih =>
    intro i acc m h e he p hc
    simp only [processEvents] at h
    split at h
    · cases h
    · rename_i hp
      rcases List.mem_cons.mp he with rfl | hmem
      · rw [processEvent_error_of_classify hc] at hp
        cases hp
      · exact ih _ _ _ h e hmem p hc
    · rename_i r hp
      rcases List.mem_cons.mp he with rfl | hmem
      · rw [processEvent_error_of_classify hc] at hp
        cases hp
      · exact ih _ _ _ h e hmem p hc

/-! The claims. -/

/-- C1: for every user transaction and configured contract address, a
successful run returns a map whose keys are pairwise distinct (exactly one
record per `(domain, subdomain)` key), and the record stored at any key equals
— in every field — the last record produced for that key in the transaction's
event order: the later event wins entirely, with no field-level merge. -/
theorem claim_C1_last_event_wins (user_txn : UserTransaction) (addr : String)
    (clock : Nat → NaiveDateTime) (m : List (CurrentAnsLookupPK × CurrentAnsLookup))
    (h : from_transaction (.UserTransaction user_txn) (some addr) clock = .ok m) :
    (m.map Prod.fst).Nodup ∧
    ∀ k, lookupPK m k = lastMatch k
      (recordsFrom addr (u64_as_i64 user_txn.info.version) clock 0 user_txn.events) := by
  simp only [from_transaction] at h
  constructor
  · exact processEvents_ok_keys_nodup _ _ _ _ _ _ _ (by simp) h
  · intro k
    rw [processEvents_ok_eq_foldl _ _ _ _ _ _ _ h, lookupPK_foldl_insRec]
    cases hl : lastMatch k
        (recordsFrom addr (u64_as_i64 user_txn.info.version) clock 0 user_txn.events) with
    | some r => simp only [hl]
    | none => simp only [hl]; rfl

/-- C1 witness: a registration of `alice` followed by an address update of
`alice` in one transaction yields a single record — the update's, with the
address present. -/
theorem claim_C1_last_event_wins_witness :
    ((exM1.map Prod.fst).Nodup ∧
     ∀ k, lookupPK exM1 k = lastMatch k
       (recordsFrom ("0x1") (u64_as_i64 42) exClock 0 [exRegEvent, exSetEvent])) ∧
    lookupPK exM1 ((("alice"), (""))) = some exRecM1 ∧
    exRecM1.registered_address = some ("0xabc") :=
  ⟨claim_C1_last_event_wins ⟨⟨42⟩, [exRegEvent, exSetEvent]⟩ ("0x1") exClock exM1 rfl,
   rfl, rfl⟩

/-- C2: a payload of one of the two known event types that fails to decode is
fatal. First conjunct: a successful run implies no event of the transaction
fails classification/decoding (no record is ever silently omitted). Second
conjunct: if the events before a failing event all process without aborting,
the call returns exactly that event's decode-failure diagnostic. Third
conjunct: every classification failure diagnostic carries the transaction
version, the qualified event type string and the raw payload of the offending
event. -/
theorem claim_C2_decode_failure_is_fatal :
    (∀ (user_txn : UserTransaction) (addr : String) (clock : Nat → NaiveDateTime) m,
       from_transaction (.UserTransaction user_txn) (some addr) clock = .ok m →
       ∀ e ∈ user_txn.events, ∀ p,
         classifyEvent addr (u64_as_i64 user_txn.info.version) e ≠ .error p) ∧
    (∀ (user_txn : UserTransaction) (addr : String) (clock : Nat → NaiveDateTime)
       (pre : List Event) (e : Event) (post : List Event) (p : Panic),
       user_txn.events = pre ++ e :: post →
       (∀ e' ∈ pre, eventSucceeds addr (u64_as_i64 user_txn.info.version) e' = true) →
       classifyEvent addr (u64_as_i64 user_txn.info.version) e = .error p →
       from_transaction (.UserTransaction user_txn) (some addr) clock = .error p) ∧
    (∀ (addr : String) (txn_version : Int) (e : Event) (p : Panic),
       classifyEvent addr txn_version e = .error p →
       ∃ module name, e.typ = .Struct addr module name ∧
         p = .decodeFailure txn_version (module ++ "::" ++ name) e.data) := by
  refine ⟨?_, ?_, ?_⟩
  · intro u addr clock m h
    simp only [from_transaction] at h
    exact processEvents_ok_no_classify_error _ _ _ _ _ _ _ h
  · intro u addr clock pre e post p hsplit hpre hc
    simp only [from_transaction, hsplit]
    obtain ⟨acc', hacc⟩ :=
      processEvents_append_of_ok addr (u64_as_i64 u.info.version) clock pre
        (e :: post) 0 [] hpre
    rw [hacc]
    simp only [processEvents, processEvent_error_of_classify hc]
  · intro addr txn_version e p hc
    obtain ⟨mo, n, hty, _, hp⟩ := classifyEvent_error hc
    exact ⟨mo, n, hty, hp⟩

/-- C2 witness: a registration payload missing the required `domain_name`
field makes the whole call return the decode-failure diagnostic carrying the
version, the type string and the payload, not a map. -/
theorem claim_C2_decode_failure_is_fatal_witness :
    classifyEvent ("0x1") (u64_as_i64 7) exBadEvent =
      .error (.decodeFailure 7 ("domains::RegisterNameEventV1") exBadData) ∧
    from_transaction (.UserTransaction ⟨⟨7⟩, [exBadEvent]⟩) (some ("0x1")) exClock =
      .error (.decodeFailure 7 ("domains::RegisterNameEventV1") exBadData) :=
  ⟨rfl, claim_C2_decode_failure_is_fatal.2.1 ⟨⟨7⟩, [exBadEvent]⟩ ("0x1") exClock []
    exBadEvent [] _ rfl (fun e' he' => absurd he' (List.not_mem_nil e')) rfl⟩

/-- C3: an event whose qualified type is `domains::RegisterNameEventV1` never
produces a record with a present address, whatever its payload contains. -/
theorem claim_C3_register_never_sets_address (addr : String) (txn_version : Int)
    (now : NaiveDateTime) (event : Event) (r : CurrentAnsLookup)
    (module name : String)
    (hty : event.typ = .Struct addr module name)
    (hname : module ++ "::" ++ name = "domains::RegisterNameEventV1")
    (h : processEvent addr txn_version now event = .ok (some r)) :
    r.registered_address = none := by
  obtain ⟨mo, n, hty2, hcase⟩ := processEvent_ok_some h
  rw [hty] at hty2
  injection hty2 with h0 h1 h2
  subst h1
  subst h2
  rcases hcase with ⟨inner, hd, hqt, hr⟩ | ⟨inner, hd, hqt, hr⟩
  · rw [hname] at hqt
    exact absurd hqt (by decide)
  · rw [(recordOfRegisterName_ok hr).1]

/-- C3 witness: a registration payload that carries address-shaped data in an
ignored `new_address` field still produces a record with no address. -/
theorem claim_C3_register_never_sets_address_witness :
    processEvent ("0x1") 3 ⟨0⟩ exJunkAddressRegEvent =
      .ok (some ⟨("bob"), (""), none, 3, ⟨1700000000⟩, ⟨0⟩⟩) ∧
    (⟨("bob"), (""), none, 3, ⟨1700000000⟩, ⟨0⟩⟩ :
      CurrentAnsLookup).registered_address = none :=
  ⟨rfl, claim_C3_register_never_sets_address ("0x1") 3 ⟨0⟩ exJunkAddressRegEvent _
    ("domains") ("RegisterNameEventV1") rfl rfl rfl⟩

/-- C4: with no configured contract address the output is empty for every
transaction, and every record of a successful run comes from an event whose
defining module address equals the configured address. -/
theorem claim_C4_address_filtering :
    (∀ (transaction : APITransaction) (clock : Nat → NaiveDateTime),
       from_transaction transaction none clock = .ok []) ∧
    (∀ (user_txn : UserTransaction) (addr : String) (clock : Nat → NaiveDateTime) m p,
       from_transaction (.UserTransaction user_txn) (some addr) clock = .ok m →
       p ∈ m →
       ∃ e ∈ user_txn.events, (∃ module name, e.typ = .Struct addr module name) ∧
         ∃ now, processEvent addr (u64_as_i64 user_txn.info.version) now e =
           .ok (some p.2)) := by
  constructor
  · intro t clock
    rfl
  · intro u addr clock m p h hp
    simp only [from_transaction] at h
    rcases processEvents_ok_mem _ _ _ _ _ _ _ h p hp with hacc | ⟨e, he, now, hpe, _⟩
    · cases hacc
    · obtain ⟨mo, n, hty, _⟩ := processEvent_ok_some hpe
      exact ⟨e, he, ⟨mo, n, hty⟩, now, hpe⟩

/-- C4 witness: the no-address case yields the empty map, and the single
record of a one-event run is traced back to the event at the configured
address that produced it. -/
theorem claim_C4_address_filtering_witness :
    from_transaction (.UserTransaction ⟨⟨42⟩, [exSetEvent]⟩) none exClock = .ok [] ∧
    from_transaction (.UserTransaction ⟨⟨42⟩, [exSetEvent]⟩) (some ("0x1")) exClock =
      .ok exM4 ∧
    (∃ e ∈ [exSetEvent], (∃ module name, e.typ = .Struct ("0x1") module name) ∧
      ∃ now, processEvent ("0x1") (u64_as_i64 42) now e = .ok (some exRecM4)) :=
  ⟨claim_C4_address_filtering.1 (.UserTransaction ⟨⟨42⟩, [exSetEvent]⟩) exClock, rfl,
   claim_C4_address_filtering.2 ⟨⟨42⟩, [exSetEvent]⟩ ("0x1") exClock exM4
     ((("alice"), ("")), exRecM4) rfl (List.mem_cons_self _ _)⟩

/-- C5: for either event variant, a produced record's expiration timestamp is
exactly the UTC timestamp whose seconds-since-epoch equal the event's
expiration seconds (1700000000 maps to epoch-second 1700000000); a value
outside the representable range fails fatally, tagged with the transaction
version, instead of being clamped or defaulted. -/
theorem claim_C5_expiration_timestamp :
    (∀ (txn_version : Int) (now : NaiveDateTime) (inner : SetNameAddressEventV1) r,
       recordOfSetNameAddress txn_version now inner = .ok r →
       r.expiration_timestamp =
         ⟨(bigdecimal_to_u64 inner.expiration_time_secs : Int)⟩) ∧
    (∀ (txn_version : Int) (now : NaiveDateTime) (inner : RegisterNameEventV1) r,
       recordOfRegisterName txn_version now inner = .ok r →
       r.expiration_timestamp =
         ⟨(bigdecimal_to_u64 inner.expiration_time_secs : Int)⟩) ∧
    (∀ txn_version : Int,
       parse_timestamp_secs 1700000000 txn_version = .ok ⟨1700000000⟩) ∧
    (∀ (ts : Nat) (txn_version : Int), MAX_TIMESTAMP_SECS < ts →
       parse_timestamp_secs ts txn_version =
         .error (.timestampFailure txn_version ts)) := by
  refine ⟨?_, ?_, ?_, ?_⟩
  · intro txn_version now inner r h
    rw [(recordOfSetNameAddress_ok h).1]
  · intro txn_version now inner r h
    rw [(recordOfRegisterName_ok h).1]
  · intro txn_version
    rfl
  · intro ts txn_version hts
    unfold parse_timestamp_secs
    rw [if_neg (by omega)]

/-- C5 witness: the concrete value 1700000000 yields exactly that
epoch-second for both variants, and an out-of-range value yields the tagged
fatal error. -/
theorem claim_C5_expiration_timestamp_witness :
    recordOfSetNameAddress 42 ⟨7⟩ exInnerSetC6 = .ok exRecC6aAt7 ∧
    exRecC6aAt7.expiration_timestamp = ⟨1700000000⟩ ∧
    parse_timestamp_secs 1700000000 99 = .ok ⟨1700000000⟩ ∧
    MAX_TIMESTAMP_SECS < 99999999999999 ∧
    parse_timestamp_secs 99999999999999 5 = .error (.timestampFailure 5 99999999999999) :=
  ⟨rfl, claim_C5_expiration_timestamp.1 42 ⟨7⟩ exInnerSetC6 exRecC6aAt7 rfl,
   claim_C5_expiration_timestamp.2.2.1 99, by decide,
   claim_C5_expiration_timestamp.2.2.2 99999999999999 5 (by decide)⟩

/-- C6: for either decoded variant, a record built from a subdomain container
holding zero strings carries the empty-string subdomain, and one built from a
container holding at least one string carries the first element verbatim. -/
theorem claim_C6_subdomain_container :
    (∀ (txn_version : Int) (now : NaiveDateTime) (inner : SetNameAddressEventV1) r,
       recordOfSetNameAddress txn_version now inner = .ok r →
       (inner.subdomain_name.vec = [] → r.subdomain = ("")) ∧
       (∀ s rest, inner.subdomain_name.vec = s :: rest → r.subdomain = s)) ∧
    (∀ (txn_version : Int) (now : NaiveDateTime) (inner : RegisterNameEventV1) r,
       recordOfRegisterName txn_version now inner = .ok r →
       (inner.subdomain_name.vec = [] → r.subdomain = ("")) ∧
       (∀ s rest, inner.subdomain_name.vec = s :: rest → r.subdomain = s)) := by
  constructor
  · intro txn_version now inner r h
    rw [(recordOfSetNameAddress_ok h).1]
    constructor
    · intro hv
      simp [OptionalString.get_string, hv]
    · intro s rest hv
      simp [OptionalString.get_string, hv]
  · intro txn_version now inner r h
    rw [(recordOfRegisterName_ok h).1]
    constructor
    · intro hv
      simp [OptionalString.get_string, hv]
    · intro s rest hv
      simp [OptionalString.get_string, hv]

/-- C6 witness: an empty container yields subdomain `""`; a two-element
container yields its first element. -/
theorem claim_C6_subdomain_container_witness :
    ((exInnerSetC6.subdomain_name.vec = [] → exRecC6a.subdomain = ("")) ∧
     (∀ s rest, exInnerSetC6.subdomain_name.vec = s :: rest →
        exRecC6a.subdomain = s)) ∧
    ((exInnerRegC6.subdomain_name.vec = [] → exRecC6b.subdomain = ("")) ∧
     (∀ s rest, exInnerRegC6.subdomain_name.vec = s :: rest →
        exRecC6b.subdomain = s)) :=
  ⟨claim_C6_subdomain_container.1 42 ⟨0⟩ exInnerSetC6 exRecC6a rfl,
   claim_C6_subdomain_container.2 42 ⟨0⟩ exInnerRegC6 exRecC6b rfl⟩

/-- C7 counterexample: on a transaction of version `2 ^ 63` — a valid `u64` —
the produced record's `last_transaction_version` is `-(2 ^ 63)`, not the
version used verbatim: the claim fails for the full unsigned range. -/
theorem claim_C7_counterexample :
    from_transaction (.UserTransaction ⟨⟨2 ^ 63⟩, [exRegEvent]⟩) (some ("0x1"))
        exClock = .ok [((("alice"), ("")), exRecBig)] ∧
    exRecBig.last_transaction_version ≠ ((2 ^ 63 : Nat) : Int) :=
  ⟨rfl, by decide⟩

/-- C7 (amended): every record of a successful run carries the transaction's
version cast through two's-complement into the signed 64-bit range
(`as i64`); for versions below `2 ^ 63` this is the version used verbatim. -/
theorem claim_C7_version_as_i64 (user_txn : UserTransaction) (addr : String)
    (clock : Nat → NaiveDateTime) (m : List (CurrentAnsLookupPK × CurrentAnsLookup))
    (k : CurrentAnsLookupPK) (r : CurrentAnsLookup)
    (h : from_transaction (.UserTransaction user_txn) (some addr) clock = .ok m)
    (hm : (k, r) ∈ m) :
    r.last_transaction_version = u64_as_i64 user_txn.info.version ∧
    (user_txn.info.version < 2 ^ 63 →
      r.last_transaction_version = (user_txn.info.version : Int)) := by
  simp only [from_transaction] at h
  rcases processEvents_ok_mem _ _ _ _ _ _ _ h _ hm with hacc | ⟨e, he, now, hpe, hk⟩
  · cases hacc
  · have hpe' : processEvent addr (u64_as_i64 user_txn.info.version) now e =
        .ok (some r) := hpe
    have hver : r.last_transaction_version = u64_as_i64 user_txn.info.version := by
      obtain ⟨mo, n, hty, hcase⟩ := processEvent_ok_some hpe'
      rcases hcase with ⟨inner, _, _, hr⟩ | ⟨inner, _, _, hr⟩
      · rw [(recordOfSetNameAddress_ok hr).1]
      · rw [(recordOfRegisterName_ok hr).1]
    refine ⟨hver, fun hlt => ?_⟩
    rw [hver]
    unfold u64_as_i64
    rw [Nat.mod_eq_of_lt (Nat.lt_of_lt_of_le hlt (by norm_num)), if_pos hlt]

/-- C7 witness: at version 42 the record's version field is 42 verbatim. -/
theorem claim_C7_version_as_i64_witness :
    (exRecM1.last_transaction_version = u64_as_i64 42 ∧
     ((42 : Nat) < 2 ^ 63 → exRecM1.last_transaction_version = ((42 : Nat) : Int))) ∧
    exRecM1.last_transaction_version = 42 :=
  ⟨claim_C7_version_as_i64 ⟨⟨42⟩, [exRegEvent, exSetEvent]⟩ ("0x1") exClock exM1
    (("alice"), ("")) exRecM1 rfl (List.mem_cons_self _ _), rfl⟩

/-- C8 counterexample: two invocations on the identical transaction and
contract address but at different wall-clock instants return different maps —
the records' `inserted_at` fields differ — so the transform is not
deterministic in every field. -/
theorem claim_C8_counterexample :
    from_transaction (.UserTransaction ⟨⟨42⟩, [exSetEvent]⟩) (some ("0x1"))
        (fun _ => ⟨0⟩) ≠
    from_transaction (.UserTransaction ⟨⟨42⟩, [exSetEvent]⟩) (some ("0x1"))
        (fun _ => ⟨1⟩) := by
  intro h
  have h2 := congrArg (fun x =>
    match x with
    | Except.ok (((_, r) :: _) : List (CurrentAnsLookupPK × CurrentAnsLookup)) =>
        r.inserted_at.secs_since_epoch
    | _ => 0) h
  exact absurd h2 (by decide)

/-- C8 (amended): the transform is deterministic in every field except
`inserted_at`, which is captured from the processing-time clock: for the
identical transaction and contract address, any two invocations return maps
that are identical after erasing each record's `inserted_at` field. -/
theorem claim_C8_determinism_modulo_inserted_at (transaction : APITransaction)
    (ans_contract_address : Option String) (c1 c2 : Nat → NaiveDateTime) :
    (from_transaction transaction ans_contract_address c1).map eraseMapTimes =
    (from_transaction transaction ans_contract_address c2).map eraseMapTimes := by
  cases ans_contract_address with
  | none => rfl
  | some addr =>
    cases transaction with
    | UserTransaction u =>
      simp only [from_transaction]
      exact processEvents_map_erase _ _ _ _ _ _ _ _ rfl
    | other => rfl

/-- C9 counterexample: a registration event whose `domain_name` is the empty
string is accepted, and the returned map holds a record whose domain is the
empty string — the claim that every record's domain is non-empty fails. -/
theorem claim_C9_counterexample :
    from_transaction (.UserTransaction ⟨⟨5⟩, [exEmptyDomainEvent]⟩) (some ("0x1"))
        exClock = .ok [(((""), ("")), exRec9)] ∧
    exRec9.domain = ("") :=
  ⟨rfl, rfl⟩

/-- C9 (amended): every record's domain equals the `domain_name` string of the
decoded payload of one of the transaction's events, taken verbatim — it may be
empty, since no validation is applied. -/
theorem claim_C9_domain_verbatim (user_txn : UserTransaction) (addr : String)
    (clock : Nat → NaiveDateTime) (m : List (CurrentAnsLookupPK × CurrentAnsLookup))
    (k : CurrentAnsLookupPK) (r : CurrentAnsLookup)
    (h : from_transaction (.UserTransaction user_txn) (some addr) clock = .ok m)
    (hm : (k, r) ∈ m) :
    ∃ e ∈ user_txn.events, decodedDomainOf e = some r.domain := by
  simp only [from_transaction] at h
  rcases processEvents_ok_mem _ _ _ _ _ _ _ h _ hm with hacc | ⟨e, he, now, hpe, hk⟩
  · cases hacc
  · refine ⟨e, he, ?_⟩
    have hpe' : processEvent addr (u64_as_i64 user_txn.info.version) now e =
        .ok (some r) := hpe
    obtain ⟨mo, n, hty, hcase⟩ := processEvent_ok_some hpe'
    have hq : qualifiedTypeOf e.typ = some (addr, mo ++ "::" ++ n) := by
      rw [hty]
      rfl
    simp only [decodedDomainOf, hq]
    rcases hcase with ⟨inner, hd, hqt, hr⟩ | ⟨inner, hd, hqt, hr⟩
    · simp [hqt, hd, (recordOfSetNameAddress_ok hr).1]
    · simp [hqt, hd, (recordOfRegisterName_ok hr).1]

/-- C9 witness: the empty-domain record of the counterexample transaction is
traced back to its event's decoded `domain_name`. -/
theorem claim_C9_domain_verbatim_witness :
    from_transaction (.UserTransaction ⟨⟨5⟩, [exEmptyDomainEvent]⟩) (some ("0x1"))
        exClock = .ok [(((""), ("")), exRec9)] ∧
    ∃ e ∈ [exEmptyDomainEvent], decodedDomainOf e = some exRec9.domain :=
  ⟨rfl, claim_C9_domain_verbatim ⟨⟨5⟩, [exEmptyDomainEvent]⟩ ("0x1") exClock
    [(((""), ("")), exRec9)] ((""), ("")) exRec9 rfl (List.mem_cons_self _ _)⟩

/-- C10: in every returned map, each entry's key is exactly the pair
`(domain, subdomain)` of the record stored under it. -/
theorem claim_C10_key_matches_record (transaction : APITransaction)
    (ans_contract_address : Option String) (clock : Nat → NaiveDateTime)
    (m : List (CurrentAnsLookupPK × CurrentAnsLookup))
    (p : CurrentAnsLookupPK × CurrentAnsLookup)
    (h : from_transaction transaction ans_contract_address clock = .ok m)
    (hp : p ∈ m) :
    p.1 = (p.2.domain, p.2.subdomain) := by
  cases ans_contract_address with
  | none =>
    injection h with h
    subst h
    cases hp
  | some addr =>
    cases transaction with
    | UserTransaction u =>
      simp only [from_transaction] at h
      rcases processEvents_ok_mem _ _ _ _ _ _ _ h p hp with hacc | ⟨_, _, _, _, hk⟩
      · cases hacc
      · exact hk
    | other =>
      injection h with h
      subst h
      cases hp

/-- C10 witness: the single entry of the concrete run has its key equal to
its record's `(domain, subdomain)`. -/
theorem claim_C10_key_matches_record_witness :
    from_transaction exTxnRegThenSet (some ("0x1")) exClock = .ok exM1 ∧
    (((("alice"), ("")), exRecM1) :
      CurrentAnsLookupPK × CurrentAnsLookup).1 = (exRecM1.domain, exRecM1.subdomain) :=
  ⟨rfl, claim_C10_key_matches_record exTxnRegThenSet (some ("0x1")) exClock exM1
    ((("alice"), ("")), exRecM1) rfl (List.mem_cons_self _ _)⟩

end Ans
